import Mathlib

/-!
Verification of the festival-greeter plugin core: the holiday calendar model
(`holidays.py`), the delivery-state store (`state_store.py`), and the
orchestration paths of `main.py`, shallowly embedded in Lean.

Machine integers are modelled by `Int` (Python integers are unbounded);
Python `date` objects by a `Date` structure with Python's `toordinal`
arithmetic; aware `datetime` objects by absolute seconds plus a fixed
zone offset; dictionaries by association lists with first-match lookup.
-/

set_option maxHeartbeats 1000000

namespace FestivalGreeter

/-! ## Calendar dates (Python `datetime.date`) -/

/-- Leap-year test of the proleptic Gregorian calendar, as used by Python
`datetime.date`. -/
def isLeapYear (y : Int) : Bool :=
  y % 4 == 0 && (y % 100 != 0 || y % 400 == 0)

/-- Number of days in month `m` of year `y` (only consulted for months
1..12, which the validity check ensures). -/
def daysInMonth (y m : Int) : Int :=
  if m == 2 then (if isLeapYear y then 29 else 28)
  else if m == 4 || m == 6 || m == 9 || m == 11 then 30
  else 31

/-- A calendar date as carried by a Python `date` object. -/
structure Date where
  year : Int
  month : Int
  day : Int
deriving DecidableEq

/-- Whether `date(y, m, d)` constructs in Python without raising
`ValueError`: year within `MINYEAR..MAXYEAR` and a valid month/day pair. -/
def validDate (y m d : Int) : Bool :=
  1 ≤ y && y ≤ 9999 && 1 ≤ m && m ≤ 12 && 1 ≤ d && d ≤ daysInMonth y m

def daysBeforeYear (y : Int) : Int :=
  365 * (y - 1) + (y - 1).fdiv 4 - (y - 1).fdiv 100 + (y - 1).fdiv 400

def daysBeforeMonth (y m : Int) : Int :=
  ((List.range (m - 1).toNat).map (fun i => daysInMonth y ((i : Int) + 1))).foldl (· + ·) 0

/-- Python's `date.toordinal`: day count with 0001-01-01 as day 1.
Subtraction of two dates compares these ordinals. -/
def toOrdinal (d : Date) : Int :=
  daysBeforeYear d.year + daysBeforeMonth d.year d.month + d.day

/-- `(a - b).days` for Python dates. -/
def dateSub (a b : Date) : Int := toOrdinal a - toOrdinal b

/-! ## Holiday definitions (`holidays.py`, `HolidayDefinition`) -/

/-- `HolidayDefinition` dataclass: name, canonical month/day, duration,
aliases, description and the per-year dynamic override table
(`dynamic_dates`, keyed by year). -/
structure HolidayDefinition where
  name : String
  month : Int
  day : Int
  lengthDays : Int := 1
  aliases : List String := []
  description : String := ""
  dynamicDates : List (Int × Int × Int) := []
deriving DecidableEq

/-- `dict.get(year)` over the dynamic-dates table. -/
def lookupYear : List (Int × Int × Int) → Int → Option (Int × Int)
  | [], _ => none
  | (y, m, d) :: rest, target => if y == target then some (m, d) else lookupYear rest target

/-- Characters kept by the slug pattern `[a-z0-9]`. -/
def isSlugChar (c : Char) : Bool :=
  ('a' ≤ c && c ≤ 'z') || ('0' ≤ c && c ≤ '9')

/-- Lowercasing on the ASCII range only.  Python `str.lower` additionally
applies Unicode case mappings — e.g. U+212A KELVIN SIGN lowers to the
ASCII letter `k` — so this per-`Char` model is exact only for characters
without such a mapping (every character of the built-in holiday names is
of that kind).  Statements that depend on lowercasing outside this
fragment take the lowercasing function as an explicit parameter
(`slugWith`). -/
def asciiLower (c : Char) : Char :=
  if 'A' ≤ c && c ≤ 'Z' then Char.ofNat (c.toNat + 32) else c

/-- `re.sub(r"[^a-z0-9]+", "-", s)`: each maximal run of non-slug
characters becomes one dash.  The flag records being inside such a run. -/
def collapseRuns : List Char → Bool → List Char
  | [], _ => []
  | c :: rest, inRun =>
    if isSlugChar c then c :: collapseRuns rest false
    else if inRun then collapseRuns rest true
    else '-' :: collapseRuns rest true

/-- `str.strip("-")`. -/
def stripDashes (l : List Char) : List Char :=
  ((l.dropWhile (fun c => c == '-')).reverse.dropWhile (fun c => c == '-')).reverse

/-- `HolidayDefinition.slug`: lowercase, collapse non-alphanumeric runs to
a dash, strip dashes, empty result replaced by the placeholder — evaluated
at the ASCII lowercasing model, which is exact for every name this file
evaluates it on concretely; `slugWith` below is the general form with the
stdlib lowercasing supplied. -/
def HolidayDefinition.slug (defn : HolidayDefinition) : String :=
  let base := stripDashes (collapseRuns (defn.name.data.map asciiLower) false)
  if base.isEmpty then "holiday" else String.mk base

/-- `HolidayDefinition.slug` with Python's per-character `str.lower`
supplied explicitly: `lower c` is the (possibly multi-character) lowercase
expansion of `c` in the Unicode case tables. -/
def slugWith (lower : Char → List Char) (defn : HolidayDefinition) : String :=
  let base := stripDashes (collapseRuns (defn.name.data.flatMap lower) false)
  if base.isEmpty then "holiday" else String.mk base

/-- `HolidayDefinition.duration_days = max(1, int(length_days))`. -/
def HolidayDefinition.durationDays (defn : HolidayDefinition) : Int :=
  max 1 defn.lengthDays

/-- `HolidayDefinition.start_date_for_year`: the dynamic override for the
year if present, else the canonical month/day; `None` when the resulting
date is not constructible. -/
def HolidayDefinition.startDateForYear (defn : HolidayDefinition) (year : Int) : Option Date :=
  let md := match lookupYear defn.dynamicDates year with
    | some md => md
    | none => (defn.month, defn.day)
  if validDate year md.1 md.2 then some ⟨year, md.1, md.2⟩ else none

/-- `HolidayOccurrence` dataclass. -/
structure HolidayOccurrence where
  definition : HolidayDefinition
  currentDate : Date
  startDate : Date
deriving DecidableEq

/-- `HolidayOccurrence.day_offset`. -/
def HolidayOccurrence.dayOffset (o : HolidayOccurrence) : Int :=
  dateSub o.currentDate o.startDate

/-- `HolidayOccurrence.is_first_day`. -/
def HolidayOccurrence.isFirstDay (o : HolidayOccurrence) : Bool :=
  o.dayOffset == 0

/-- Decimal rendering of a nonnegative integer, zero-padded to `width`,
as Python `date.isoformat` pads its components. -/
def padNum (width : Nat) (n : Int) : String :=
  let s := toString n.toNat
  String.mk (List.replicate (width - s.length) '0') ++ s

/-- Python `date.isoformat()`. -/
def isoDate (d : Date) : String :=
  padNum 4 d.year ++ "-" ++ padNum 2 d.month ++ "-" ++ padNum 2 d.day

/-- `HolidayOccurrence.key = f"{slug}-{date.isoformat()}"`. -/
def HolidayOccurrence.key (o : HolidayOccurrence) : String :=
  o.definition.slug ++ "-" ++ isoDate o.currentDate

/-- `HolidayDefinition.occurrence_on`. -/
def HolidayDefinition.occurrenceOn (defn : HolidayDefinition) (target : Date) :
    Option HolidayOccurrence :=
  match defn.startDateForYear target.year with
  | none => none
  | some start =>
    let delta := dateSub target start
    if 0 ≤ delta ∧ delta < defn.durationDays then some ⟨defn, target, start⟩ else none

/-- `DEFAULT_HOLIDAYS` from `holidays.py`, transcribed verbatim. -/
def DEFAULT_HOLIDAYS : List HolidayDefinition := [
  ⟨"元旦", 1, 1, 1, ["新年"], "", []⟩,
  ⟨"春节", 2, 1, 7, ["新春", "Spring Festival"], "",
    [(2024, 2, 10), (2025, 1, 29), (2026, 2, 17), (2027, 2, 6), (2028, 1, 26),
     (2029, 2, 13), (2030, 2, 3)]⟩,
  ⟨"元宵节", 2, 15, 1, ["上元节"], "",
    [(2024, 2, 24), (2025, 2, 12), (2026, 3, 3), (2027, 2, 20), (2028, 2, 9),
     (2029, 2, 28), (2030, 2, 18)]⟩,
  ⟨"妇女节", 3, 8, 1, ["女神节"], "", []⟩,
  ⟨"植树节", 3, 12, 1, [], "", []⟩,
  ⟨"清明节", 4, 5, 1, ["踏青节"], "", []⟩,
  ⟨"劳动节", 5, 1, 3, ["五一"], "", []⟩,
  ⟨"青年节", 5, 4, 1, [], "", []⟩,
  ⟨"端午节", 6, 3, 1, ["龙舟节"], "",
    [(2024, 6, 10), (2025, 5, 31), (2026, 6, 19), (2027, 6, 9), (2028, 5, 28),
     (2029, 6, 16), (2030, 6, 5)]⟩,
  ⟨"儿童节", 6, 1, 1, ["六一"], "", []⟩,
  ⟨"建党节", 7, 1, 1, [], "", []⟩,
  ⟨"七夕节", 8, 7, 1, ["乞巧节"], "",
    [(2024, 8, 10), (2025, 8, 29), (2026, 8, 19), (2027, 8, 8), (2028, 8, 26),
     (2029, 8, 15), (2030, 8, 4)]⟩,
  ⟨"建军节", 8, 1, 1, [], "", []⟩,
  ⟨"教师节", 9, 10, 1, [], "", []⟩,
  ⟨"中秋节", 9, 15, 3, ["月圆节", "Moon Festival"], "",
    [(2024, 9, 17), (2025, 10, 6), (2026, 9, 25), (2027, 9, 15), (2028, 10, 3),
     (2029, 9, 22), (2030, 9, 12)]⟩,
  ⟨"国庆节", 10, 1, 7, ["十一", "National Day"], "", []⟩,
  ⟨"重阳节", 10, 9, 1, ["敬老节"], "",
    [(2024, 10, 11), (2025, 10, 29), (2026, 10, 18), (2027, 10, 7), (2028, 10, 26),
     (2029, 10, 15), (2030, 10, 4)]⟩]

/-- `HolidayCalendar.__init__`: start from the defaults; each custom
definition first evicts every definition sharing its slug, then is
appended. -/
def calendarInit (customs : List HolidayDefinition) : List HolidayDefinition :=
  customs.foldl
    (fun defs item => (defs.filter (fun d => d.slug != item.slug)) ++ [item])
    DEFAULT_HOLIDAYS

/-- `HolidayCalendar.get_holidays_for`. -/
def getHolidaysFor (defs : List HolidayDefinition) (target : Date) : List HolidayOccurrence :=
  defs.filterMap (fun d => d.occurrenceOn target)

end FestivalGreeter

namespace FestivalGreeter

/-! ## C1: characterisation of `occurrence_on` -/

/-- C1: for every holiday definition and query date, `occurrence_on` resolves
the start date for the query date's year; if resolution fails it returns
none; otherwise, letting `offset = date − start` in whole days, it returns an
occurrence with that offset and `is_first_day = (offset == 0)` exactly when
`0 ≤ offset < duration`, and none otherwise — so it matches every date in
`[start, start + duration)` within that year and no others. -/
theorem occurrenceOn_spec (defn : HolidayDefinition) (target : Date) :
    (defn.startDateForYear target.year = none → defn.occurrenceOn target = none) ∧
    ∀ start, defn.startDateForYear target.year = some start →
      ((defn.occurrenceOn target).isSome ↔
        0 ≤ dateSub target start ∧ dateSub target start < defn.durationDays) ∧
      ∀ occ, defn.occurrenceOn target = some occ →
        occ.dayOffset = dateSub target start ∧
        (occ.isFirstDay = true ↔ dateSub target start = 0) ∧
        occ.currentDate = target ∧ occ.startDate = start := by
  refine ⟨fun h => by simp [HolidayDefinition.occurrenceOn, h], fun start h => ?_⟩
  simp only [HolidayDefinition.occurrenceOn, h]
  constructor
  · split <;> simp_all
  · intro occ hocc
    split at hocc
    · cases hocc
      simp [HolidayOccurrence.dayOffset, HolidayOccurrence.isFirstDay, beq_iff_eq]
    · cases hocc

/-- Witness for C1: 元旦 queried on 2025-01-01 has a resolvable start and an
in-window offset, so the occurrence is produced. -/
theorem occurrenceOn_spec_witness :
    ((⟨"元旦", 1, 1, 1, ["新年"], "", []⟩ : HolidayDefinition).occurrenceOn
      ⟨2025, 1, 1⟩).isSome = true := by
  have h := occurrenceOn_spec (⟨"元旦", 1, 1, 1, ["新年"], "", []⟩ : HolidayDefinition)
    ⟨2025, 1, 1⟩
  exact ((h.2 ⟨2025, 1, 1⟩ (by decide)).1).mpr (by decide)

end FestivalGreeter

namespace FestivalGreeter

/-! ## Delivery state store (`state_store.py`)

Aware Python `datetime` objects are modelled by absolute seconds since an
epoch plus the zone's UTC offset in seconds: comparison and subtraction of
aware datetimes use the absolute instant, while `.date()` applies the
offset first.  The stdlib pair `datetime.isoformat` / `datetime.fromisoformat`
is abstracted as a formatting function `fmt : DateTime → String` and a
parsing function `parse : String → Option DateTime` (`none` models
`ValueError`); theorems that need the stdlib round-trip law
`fromisoformat(t.isoformat()) == t` take it as a hypothesis. -/

/-- An aware `datetime`: absolute seconds plus fixed zone offset. -/
structure DateTime where
  secs : Int
  offset : Int
deriving DecidableEq

/-- `datetime.date()` as a day index: civil day of the local instant. -/
def DateTime.dateIndex (t : DateTime) : Int :=
  (t.secs + t.offset).fdiv 86400

/-- Per-recipient records: occurrence key ↦ stored timestamp string. -/
abbrev GroupRecords := List (String × String)

/-- The ledger `state["deliveries"]`: recipient ↦ records. -/
abbrev StoreState := List (String × GroupRecords)

/-- First-match association lookup, as Python `dict` access. -/
def lookupA : List (String × α) → String → Option α
  | [], _ => none
  | (k', v) :: rest, k => if k' = k then some v else lookupA rest k

/-- `dict[k] = v`: replace the binding if present, else append. -/
def upsertA : List (String × α) → String → α → List (String × α)
  | [], k, v => [(k, v)]
  | (k', v') :: rest, k, v =>
    if k' = k then (k, v) :: rest else (k', v') :: upsertA rest k v

/-- The stored string for a `(recipient, occurrence key)` pair:
`state["deliveries"].get(group_id, {}).get(holiday_key)`. -/
def lookupRecord (st : StoreState) (g k : String) : Option String :=
  lookupA ((lookupA st g).getD []) k

/-- `DeliveryStateStore.get_last_sent`: missing or falsy (empty) values
give `None`; otherwise `datetime.fromisoformat`, with `ValueError` as
`None`. -/
def getLastSent (parse : String → Option DateTime) (st : StoreState) (g k : String) :
    Option DateTime :=
  match lookupRecord st g k with
  | none => none
  | some v => if v = "" then none else parse v

/-- `DeliveryStateStore.should_send`. -/
def shouldSend (parse : String → Option DateTime) (st : StoreState) (g k : String)
    (now : DateTime) (cooldownHours : Int) : Bool :=
  match getLastSent parse st g k with
  | none => true
  | some lastSent =>
    if cooldownHours ≤ 0 then lastSent.dateIndex != now.dateIndex
    else now.secs - lastSent.secs ≥ cooldownHours * 3600

/-- `DeliveryStateStore.mark_sent`: upsert the record with
`timestamp.isoformat()` (the in-memory write; the flush is I/O). -/
def markSent (fmt : DateTime → String) (st : StoreState) (g k : String) (t : DateTime) :
    StoreState :=
  upsertA st g (upsertA ((lookupA st g).getD []) k (fmt t))

/-- `DeliveryStateStore._is_recent`: unparsable timestamps are not recent;
otherwise aware-datetime comparison `dt >= cutoff` on the absolute instant. -/
def isRecent (parse : String → Option DateTime) (ts : String) (cutoff : DateTime) : Bool :=
  match parse ts with
  | none => false
  | some dt => dt.secs ≥ cutoff.secs

/-- `DeliveryStateStore.prune_before`: keep only recent records in every
group; drop groups left empty.  The returned ledger is the one `_flush`
persists. -/
def pruneBefore (parse : String → Option DateTime) : StoreState → DateTime → StoreState
  | [], _ => []
  | (g, records) :: rest, cutoff =>
    if (records.filter (fun q => isRecent parse q.2 cutoff)).isEmpty then
      pruneBefore parse rest cutoff
    else
      (g, records.filter (fun q => isRecent parse q.2 cutoff)) :: pruneBefore parse rest cutoff

/-- Well-formed ledger: recipient keys are distinct and so are the
occurrence keys within each recipient (Python dicts guarantee both). -/
def WFStore (st : StoreState) : Prop :=
  (st.map Prod.fst).Nodup ∧ ∀ p ∈ st, (p.2.map Prod.fst).Nodup

end FestivalGreeter

namespace FestivalGreeter

/-! ## Association-list lemmas -/

theorem lookupA_upsertA_self (l : List (String × α)) (k : String) (v : α) :
    lookupA (upsertA l k v) k = some v := by
  induction l with
  | nil => simp [upsertA, lookupA]
  | cons p rest ih =>
    obtain ⟨k', v'⟩ := p
    by_cases hk : k' = k
    · simp [upsertA, lookupA, hk]
    · simp [upsertA, lookupA, hk, ih]

theorem lookupA_upsertA_other (l : List (String × α)) (k k' : String) (v : α)
    (h : k' ≠ k) : lookupA (upsertA l k v) k' = lookupA l k' := by
  induction l with
  | nil => simp only [upsertA, lookupA, if_neg (Ne.symm h)]
  | cons p rest ih =>
    obtain ⟨k₀, v₀⟩ := p
    by_cases hk : k₀ = k
    · subst hk
      simp only [upsertA, if_pos rfl, lookupA, if_neg (Ne.symm h)]
    · simp only [upsertA, if_neg hk, lookupA]
      by_cases hk' : k₀ = k'
      · simp [hk']
      · simp [hk', ih]

theorem lookupRecord_markSent_self (fmt : DateTime → String) (st : StoreState)
    (g k : String) (t : DateTime) :
    lookupRecord (markSent fmt st g k t) g k = some (fmt t) := by
  simp [lookupRecord, markSent, lookupA_upsertA_self]

/-! ## C2: `should_send` semantics and cooldown monotonicity -/

/-- C2: `should_send` is true when no record exists; with a parsable record
and `cooldown_hours ≤ 0` it is true iff the stored timestamp's calendar
date differs from `now`'s; with `cooldown_hours > 0` it is true iff
`now − last_sent` is at least that many hours.  Consequently, after
`mark_sent(r, k, t)` (using the stdlib round-trip
`fromisoformat(t.isoformat()) = t`, `isoformat` never empty),
`should_send(r, k, t', c)` with `c > 0` is false for `t' < t + c` hours and
true for `t' ≥ t + c` hours. -/
theorem shouldSend_spec (parse : String → Option DateTime) (fmt : DateTime → String)
    (st : StoreState) (g k : String) (now : DateTime) (c : Int) :
    (lookupRecord st g k = none → shouldSend parse st g k now c = true) ∧
    (∀ v t, lookupRecord st g k = some v → v ≠ "" → parse v = some t →
      (c ≤ 0 → (shouldSend parse st g k now c = true ↔ t.dateIndex ≠ now.dateIndex)) ∧
      (0 < c → (shouldSend parse st g k now c = true ↔ now.secs - t.secs ≥ c * 3600))) ∧
    (∀ t t', 0 < c → parse (fmt t) = some t → fmt t ≠ "" →
      (shouldSend parse (markSent fmt st g k t) g k t' c = true ↔
        t'.secs - t.secs ≥ c * 3600)) := by
  refine ⟨fun h => by simp [shouldSend, getLastSent, h], fun v t hv hne hp => ?_, ?_⟩
  · constructor
    · intro hc
      simp [shouldSend, getLastSent, hv, hne, hp, if_pos hc, bne_iff_ne]
    · intro hc
      simp [shouldSend, getLastSent, hv, hne, hp, if_neg (by omega : ¬c ≤ 0),
        ge_iff_le, decide_eq_true_eq]
  · intro t t' hc hrt hne
    have hrec := lookupRecord_markSent_self fmt st g k t
    simp [shouldSend, getLastSent, hrec, hne, hrt, if_neg (by omega : ¬c ≤ 0),
      ge_iff_le, decide_eq_true_eq]

/-- Witness for C2, the spec's own scenario: no record yet ⇒ due; after
`mark_sent` at `t0`, one hour later (cooldown 24) ⇒ not due; 25 hours
later ⇒ due again. -/
theorem shouldSend_spec_witness :
    shouldSend (fun s => if s = "T" then some ⟨0, 0⟩ else none)
      [] "g1" "newyear-2025-01-01" ⟨0, 0⟩ 24 = true ∧
    shouldSend (fun s => if s = "T" then some ⟨0, 0⟩ else none)
      (markSent (fun _ => "T") [] "g1" "newyear-2025-01-01" ⟨0, 0⟩)
      "g1" "newyear-2025-01-01" ⟨3600, 0⟩ 24 = false ∧
    shouldSend (fun s => if s = "T" then some ⟨0, 0⟩ else none)
      (markSent (fun _ => "T") [] "g1" "newyear-2025-01-01" ⟨0, 0⟩)
      "g1" "newyear-2025-01-01" ⟨90000, 0⟩ 24 = true := by
  refine ⟨(shouldSend_spec (fun s => if s = "T" then some ⟨0, 0⟩ else none)
    (fun _ => "T") [] "g1" "newyear-2025-01-01" ⟨0, 0⟩ 24).1 (by decide), ?_, ?_⟩
  · have h := (shouldSend_spec (fun s => if s = "T" then some ⟨0, 0⟩ else none)
      (fun _ => "T") [] "g1" "newyear-2025-01-01" ⟨3600, 0⟩ 24).2.2
      ⟨0, 0⟩ ⟨3600, 0⟩ (by decide) (by decide) (by decide)
    exact Bool.eq_false_iff.mpr (fun hh => absurd (h.mp hh) (by decide))
  · exact ((shouldSend_spec (fun s => if s = "T" then some ⟨0, 0⟩ else none)
      (fun _ => "T") [] "g1" "newyear-2025-01-01" ⟨90000, 0⟩ 24).2.2
      ⟨0, 0⟩ ⟨90000, 0⟩ (by decide) (by decide) (by decide)).mpr (by decide)

/-! ## C8: unparsable stored timestamps behave like missing records -/

/-- C8: when the stored string for a pair does not parse as an ISO-8601
datetime, `get_last_sent` returns none and `should_send` returns true for
every `now` and every cooldown setting — exactly as if no record existed. -/
theorem unparsable_record_resend (parse : String → Option DateTime) (st : StoreState)
    (g k v : String) (now : DateTime) (c : Int)
    (hv : lookupRecord st g k = some v) (hp : parse v = none) :
    getLastSent parse st g k = none ∧ shouldSend parse st g k now c = true := by
  have hg : getLastSent parse st g k = none := by
    by_cases hne : v = ""
    · simp [getLastSent, hv, hne]
    · simp [getLastSent, hv, hne, hp]
  exact ⟨hg, by simp [shouldSend, hg]⟩

/-- Witness for C8: a ledger holding a non-ISO string for the pair permits
an immediate re-send. -/
theorem unparsable_record_resend_witness :
    getLastSent (fun _ => none) [("g", [("k", "not-a-date")])] "g" "k" = none ∧
    shouldSend (fun _ => none) [("g", [("k", "not-a-date")])] "g" "k" ⟨0, 0⟩ 24 = true :=
  unparsable_record_resend (fun _ => none) [("g", [("k", "not-a-date")])]
    "g" "k" "not-a-date" ⟨0, 0⟩ 24 (by decide) rfl

end FestivalGreeter


namespace FestivalGreeter

/-! ## C7: `prune_before` -/

theorem lookupA_cons_self (k : String) (v : α) (rest : List (String × α)) :
    lookupA ((k, v) :: rest) k = some v := by
  simp [lookupA]

theorem lookupA_cons_ne (k₀ k : String) (v : α) (rest : List (String × α))
    (h : k₀ ≠ k) : lookupA ((k₀, v) :: rest) k = lookupA rest k := by
  simp [lookupA, h]

theorem lookupA_eq_none_iff (l : List (String × α)) (g : String) :
    lookupA l g = none ↔ g ∉ l.map Prod.fst := by
  induction l with
  | nil => simp [lookupA]
  | cons p rest ih =>
    obtain ⟨k₀, v₀⟩ := p
    by_cases hk : k₀ = g
    · subst hk
      rw [lookupA_cons_self]
      simp
    · rw [lookupA_cons_ne _ _ _ _ hk, ih]
      simp only [List.map_cons, List.mem_cons]
      constructor
      · intro h1 h2
        rcases h2 with h2 | h2
        · exact hk h2.symm
        · exact h1 h2
      · intro h1 h2
        exact h1 (Or.inr h2)

theorem lookupA_mem (l : List (String × α)) (g : String) (v : α)
    (h : lookupA l g = some v) : (g, v) ∈ l := by
  induction l with
  | nil => cases h
  | cons p rest ih =>
    obtain ⟨k₀, v₀⟩ := p
    by_cases hk : k₀ = g
    · subst hk
      rw [lookupA_cons_self] at h
      cases h
      exact List.mem_cons_self _ _
    · rw [lookupA_cons_ne _ _ _ _ hk] at h
      exact List.mem_cons_of_mem _ (ih h)

theorem keys_filter_subset (l : List (String × α)) (p : String × α → Bool) (g : String)
    (h : g ∈ (l.filter p).map Prod.fst) : g ∈ l.map Prod.fst := by
  rcases List.mem_map.mp h with ⟨q, hq, rfl⟩
  exact List.mem_map.mpr ⟨q, List.mem_of_mem_filter hq, rfl⟩

theorem lookupA_filter (l : List (String × α)) (p : String × α → Bool)
    (hnd : (l.map Prod.fst).Nodup) (k : String) (v : α) :
    lookupA (l.filter p) k = some v ↔ lookupA l k = some v ∧ p (k, v) = true := by
  induction l with
  | nil => simp [lookupA]
  | cons q rest ih =>
    obtain ⟨k₀, v₀⟩ := q
    simp only [List.map_cons, List.nodup_cons] at hnd
    obtain ⟨hk₀, hrest⟩ := hnd
    by_cases hp : p (k₀, v₀) = true
    · rw [List.filter_cons_of_pos hp]
      by_cases hk : k₀ = k
      · subst hk
        rw [lookupA_cons_self, lookupA_cons_self]
        constructor
        · intro hv
          cases hv
          exact ⟨rfl, hp⟩
        · intro hv
          exact hv.1
      · rw [lookupA_cons_ne _ _ _ _ hk, lookupA_cons_ne _ _ _ _ hk]
        exact ih hrest
    · rw [List.filter_cons_of_neg hp]
      by_cases hk : k₀ = k
      · subst hk
        have hnone : lookupA (rest.filter p) k₀ = none :=
          (lookupA_eq_none_iff _ _).mpr
            (fun hmem => hk₀ (keys_filter_subset rest p k₀ hmem))
        rw [hnone, lookupA_cons_self]
        constructor
        · intro hv
          cases hv
        · rintro ⟨hv, hpv⟩
          cases hv
          exact absurd hpv hp
      · rw [lookupA_cons_ne _ _ _ _ hk]
        exact ih hrest

theorem keys_pruneBefore_subset (parse : String → Option DateTime) (st : StoreState)
    (cutoff : DateTime) (g : String)
    (h : g ∈ (pruneBefore parse st cutoff).map Prod.fst) : g ∈ st.map Prod.fst := by
  induction st with
  | nil => simp [pruneBefore] at h
  | cons p rest ih =>
    obtain ⟨g₀, records⟩ := p
    simp only [pruneBefore] at h
    split at h
    · exact List.mem_cons_of_mem _ (ih h)
    · rcases List.mem_cons.mp h with h1 | h1
      · simp [h1]
      · exact List.mem_cons_of_mem _ (ih h1)

theorem isRecent_iff (parse : String → Option DateTime) (ts : String) (cutoff : DateTime) :
    isRecent parse ts cutoff = true ↔ ∃ dt, parse ts = some dt ∧ cutoff.secs ≤ dt.secs := by
  unfold isRecent
  cases hp : parse ts with
  | none => simp
  | some dt => simp [ge_iff_le]

theorem lookupA_pruneBefore (parse : String → Option DateTime) (cutoff : DateTime) :
    ∀ st : StoreState, (st.map Prod.fst).Nodup →
    ∀ g records, lookupA st g = some records →
      lookupA (pruneBefore parse st cutoff) g =
        (if (records.filter (fun q => isRecent parse q.2 cutoff)).isEmpty then none
         else some (records.filter (fun q => isRecent parse q.2 cutoff))) := by
  intro st
  induction st with
  | nil => intro _ g records hg; cases hg
  | cons p rest ih =>
    obtain ⟨g₀, records₀⟩ := p
    intro hout g records hg
    simp only [List.map_cons, List.nodup_cons] at hout
    obtain ⟨hg₀, hrest⟩ := hout
    by_cases hk : g₀ = g
    · subst hk
      rw [lookupA_cons_self] at hg
      cases hg
      simp only [pruneBefore]
      by_cases hempty : (records₀.filter (fun q => isRecent parse q.2 cutoff)).isEmpty = true
      · rw [if_pos hempty, if_pos hempty]
        exact (lookupA_eq_none_iff _ _).mpr
          (fun hmem => hg₀ (keys_pruneBefore_subset parse rest cutoff g₀ hmem))
      · rw [if_neg hempty, if_neg hempty, lookupA_cons_self]
    · rw [lookupA_cons_ne _ _ _ _ hk] at hg
      have hrec := ih hrest g records hg
      simp only [pruneBefore]
      by_cases hempty : (records₀.filter (fun q => isRecent parse q.2 cutoff)).isEmpty = true
      · rw [if_pos hempty]
        exact hrec
      · rw [if_neg hempty, lookupA_cons_ne _ _ _ _ hk]
        exact hrec

/-- C7: `prune_before` keeps, in every group, exactly the records whose
stored timestamp parses to an instant `≥ cutoff` (so records strictly
earlier than the cutoff, and records with unparsable timestamps, are
removed); a recipient whose records are all pruned disappears from the
ledger entirely, and recipients absent before stay absent.  The returned
ledger is the one `_flush` persists. -/
theorem pruneBefore_spec (parse : String → Option DateTime) (st : StoreState)
    (cutoff : DateTime) (h : WFStore st) :
    (∀ g records, lookupA st g = some records →
      lookupA (pruneBefore parse st cutoff) g =
        (if (records.filter (fun q => isRecent parse q.2 cutoff)).isEmpty then none
         else some (records.filter (fun q => isRecent parse q.2 cutoff)))) ∧
    (∀ g, lookupA st g = none → lookupA (pruneBefore parse st cutoff) g = none) ∧
    (∀ g k ts, lookupRecord (pruneBefore parse st cutoff) g k = some ts ↔
      lookupRecord st g k = some ts ∧
      ∃ dt, parse ts = some dt ∧ cutoff.secs ≤ dt.secs) := by
  obtain ⟨hout, hin⟩ := h
  have main := lookupA_pruneBefore parse cutoff st hout
  have hnone : ∀ g, lookupA st g = none → lookupA (pruneBefore parse st cutoff) g = none := by
    intro g hg
    exact (lookupA_eq_none_iff _ _).mpr
      (fun hmem => (lookupA_eq_none_iff st g).mp hg
        (keys_pruneBefore_subset parse st cutoff g hmem))
  refine ⟨main, hnone, ?_⟩
  intro g k ts
  cases hg : lookupA st g with
  | none =>
    have h1 : lookupRecord (pruneBefore parse st cutoff) g k = none := by
      simp [lookupRecord, hnone g hg, lookupA]
    have h2 : lookupRecord st g k = none := by simp [lookupRecord, hg, lookupA]
    rw [h1, h2]
    simp
  | some records =>
    have hndrec : (records.map Prod.fst).Nodup := hin _ (lookupA_mem st g records hg)
    have hfilter := lookupA_filter records (fun q => isRecent parse q.2 cutoff) hndrec k ts
    have h2 : lookupRecord st g k = lookupA records k := by simp [lookupRecord, hg]
    by_cases hc : (records.filter (fun q => isRecent parse q.2 cutoff)).isEmpty = true
    · have hfe : records.filter (fun q => isRecent parse q.2 cutoff) = [] :=
        List.isEmpty_iff.mp hc
      have h1 : lookupRecord (pruneBefore parse st cutoff) g k = none := by
        simp [lookupRecord, main g records hg, if_pos hc, lookupA]
      rw [h1, h2]
      constructor
      · intro hcon
        cases hcon
      · rintro ⟨hl, dt, hp, hle⟩
        have hkeep := hfilter.mpr ⟨hl, (isRecent_iff parse ts cutoff).mpr ⟨dt, hp, hle⟩⟩
        rw [hfe] at hkeep
        cases hkeep
    · have h1 : lookupRecord (pruneBefore parse st cutoff) g k =
          lookupA (records.filter (fun q => isRecent parse q.2 cutoff)) k := by
        simp [lookupRecord, main g records hg, if_neg hc]
      rw [h1, h2, hfilter]
      constructor
      · rintro ⟨hl, hr⟩
        exact ⟨hl, (isRecent_iff parse ts cutoff).mp hr⟩
      · rintro ⟨hl, dt, hp, hle⟩
        exact ⟨hl, (isRecent_iff parse ts cutoff).mpr ⟨dt, hp, hle⟩⟩

/-- Witness for C7: a two-recipient ledger where one recipient keeps its
fresh record and the other one (holding a stale and an unparsable record)
is removed entirely. -/
theorem pruneBefore_spec_witness :
    pruneBefore (fun s => if s = "new" then some ⟨100, 0⟩ else
        if s = "old" then some ⟨-100, 0⟩ else none)
      [("g1", [("k1", "new"), ("k2", "old")]), ("g2", [("k3", "bad"), ("k4", "old")])]
      ⟨0, 0⟩ = [("g1", [("k1", "new")])] ∧
    lookupRecord (pruneBefore (fun s => if s = "new" then some ⟨100, 0⟩ else
        if s = "old" then some ⟨-100, 0⟩ else none)
      [("g1", [("k1", "new"), ("k2", "old")]), ("g2", [("k3", "bad"), ("k4", "old")])]
      ⟨0, 0⟩) "g1" "k1" = some "new" := by
  constructor
  · decide
  · exact ((pruneBefore_spec (fun s => if s = "new" then some ⟨100, 0⟩ else
        if s = "old" then some ⟨-100, 0⟩ else none)
      [("g1", [("k1", "new"), ("k2", "old")]), ("g2", [("k3", "bad"), ("k4", "old")])]
      ⟨0, 0⟩ ⟨by decide, by decide⟩).2.2 "g1" "k1" "new").mpr
      ⟨by decide, ⟨100, 0⟩, by decide, by decide⟩

end FestivalGreeter

namespace FestivalGreeter

/-! ## C3: placeholder slugs collide -/

/-- A name containing no ASCII letters and no ASCII digits (every built-in
Chinese holiday name is such a name). -/
def noAsciiAlnum (s : String) : Bool :=
  s.data.all (fun c =>
    !(('A' ≤ c && c ≤ 'Z') || ('a' ≤ c && c ≤ 'z') || ('0' ≤ c && c ≤ '9')))

theorem collapseRuns_all_nonslug_true (l : List Char)
    (h : ∀ c ∈ l, isSlugChar c = false) : collapseRuns l true = [] := by
  induction l with
  | nil => rfl
  | cons c rest ih =>
    simp only [collapseRuns, h c (List.mem_cons_self c rest)]
    simp only [Bool.false_eq_true, if_false, if_true]
    exact ih (fun c' hc' => h c' (List.mem_cons_of_mem _ hc'))

/-- `HolidayOccurrence.key` at an explicit stdlib lowercasing. -/
def keyWith (lower : Char → List Char) (o : HolidayOccurrence) : String :=
  slugWith lower o.definition ++ "-" ++ isoDate o.currentDate

/-- `HolidayCalendar.__init__` at an explicit stdlib lowercasing. -/
def calendarInitWith (lower : Char → List Char) (customs : List HolidayDefinition) :
    List HolidayDefinition :=
  customs.foldl
    (fun defs item =>
      (defs.filter (fun d => slugWith lower d != slugWith lower item)) ++ [item])
    DEFAULT_HOLIDAYS

theorem slugWith_of_nonslug (lower : Char → List Char) (defn : HolidayDefinition)
    (h : ∀ ch ∈ defn.name.data, ∀ lc ∈ lower ch, isSlugChar lc = false) :
    slugWith lower defn = "holiday" := by
  have hall : ∀ x ∈ defn.name.data.flatMap lower, isSlugChar x = false := by
    intro x hx
    rcases List.mem_flatMap.mp hx with ⟨ch, hch, hlc⟩
    exact h ch hch x hlc
  cases hd : defn.name.data.flatMap lower with
  | nil =>
    unfold slugWith
    rw [hd]
    rfl
  | cons cHead rest =>
    have hch : isSlugChar cHead = false := hall cHead (hd ▸ List.mem_cons_self _ _)
    have hrest : collapseRuns rest true = [] :=
      collapseRuns_all_nonslug_true rest
        (fun c' hc' => hall c' (hd ▸ List.mem_cons_of_mem _ hc'))
    unfold slugWith
    rw [hd]
    simp only [collapseRuns, hch, Bool.false_eq_true, if_false, hrest]
    rfl

/-- C3 (amended): any two holiday definitions whose names *lowercase*
(`str.lower`) to text with no ASCII letters or digits — which includes
every built-in Chinese name — get the fixed placeholder slug "holiday";
two such holidays evaluated on the same calendar date produce identical
occurrence keys, and constructing the calendar with one custom definition
of that shape evicts every built-in, leaving only the custom one.  The
lowercasing function is the explicit `lower` parameter; the hypotheses say
exactly that it sends every character of the names involved (the three
customs and the built-ins) to non-slug characters, which is how Python
lowercases them.  (The original claim's weaker hypothesis — the *name*
contains no ASCII letters or digits — is refuted by U+212A KELVIN SIGN,
whose lowercase is the ASCII letter `k`: see the counterexample.) -/
theorem placeholder_slug_collision_lowered (lower : Char → List Char)
    (d1 d2 c : HolidayDefinition) (s1 s2 target : Date)
    (h1 : ∀ ch ∈ d1.name.data, ∀ lc ∈ lower ch, isSlugChar lc = false)
    (h2 : ∀ ch ∈ d2.name.data, ∀ lc ∈ lower ch, isSlugChar lc = false)
    (hc : ∀ ch ∈ c.name.data, ∀ lc ∈ lower ch, isSlugChar lc = false)
    (hdef : ∀ d ∈ DEFAULT_HOLIDAYS, ∀ ch ∈ d.name.data, ∀ lc ∈ lower ch,
      isSlugChar lc = false) :
    slugWith lower d1 = "holiday" ∧ slugWith lower d2 = "holiday" ∧
    (∀ d ∈ DEFAULT_HOLIDAYS, slugWith lower d = "holiday") ∧
    keyWith lower ⟨d1, target, s1⟩ = keyWith lower ⟨d2, target, s2⟩ ∧
    calendarInitWith lower [c] = [c] := by
  have hs1 := slugWith_of_nonslug lower d1 h1
  have hs2 := slugWith_of_nonslug lower d2 h2
  have hsc := slugWith_of_nonslug lower c hc
  have hdslug : ∀ d ∈ DEFAULT_HOLIDAYS, slugWith lower d = "holiday" :=
    fun d hd => slugWith_of_nonslug lower d (hdef d hd)
  refine ⟨hs1, hs2, hdslug, ?_, ?_⟩
  · simp [keyWith, hs1, hs2]
  · show (DEFAULT_HOLIDAYS.filter
      (fun d => slugWith lower d != slugWith lower c)) ++ [c] = [c]
    have hnil : DEFAULT_HOLIDAYS.filter
        (fun d => slugWith lower d != slugWith lower c) = [] := by
      rw [List.filter_eq_nil_iff]
      intro d hd
      rw [hdslug d hd, hsc]
      simp
    rw [hnil]
    rfl

/-- Witness for C3 (amended) at the ASCII-exact names: 元旦 and 春节 both
collapse to the "holiday" slug, they share the occurrence key on a common
date, and one custom Chinese-named definition wipes out all seventeen
built-ins.  On these names `str.lower` is the identity, so the ASCII model
`fun ch => [asciiLower ch]` instantiates `lower` faithfully. -/
theorem placeholder_slug_collision_lowered_witness :
    slugWith (fun ch => [asciiLower ch]) ⟨"元旦", 1, 1, 1, ["新年"], "", []⟩ = "holiday" ∧
    keyWith (fun ch => [asciiLower ch])
        ⟨⟨"元旦", 1, 1, 1, ["新年"], "", []⟩, ⟨2025, 1, 1⟩, ⟨2025, 1, 1⟩⟩ =
      keyWith (fun ch => [asciiLower ch])
        ⟨⟨"春节", 2, 1, 7, [], "", []⟩, ⟨2025, 1, 1⟩, ⟨2025, 1, 29⟩⟩ ∧
    calendarInitWith (fun ch => [asciiLower ch]) [⟨"测试", 1, 1, 1, [], "", []⟩] =
      [⟨"测试", 1, 1, 1, [], "", []⟩] := by
  have h := placeholder_slug_collision_lowered (fun ch => [asciiLower ch])
    ⟨"元旦", 1, 1, 1, ["新年"], "", []⟩ ⟨"春节", 2, 1, 7, [], "", []⟩
    ⟨"测试", 1, 1, 1, [], "", []⟩ ⟨2025, 1, 1⟩ ⟨2025, 1, 29⟩ ⟨2025, 1, 1⟩
    (by decide) (by decide) (by decide) (by decide)
  exact ⟨h.1, h.2.2.2.1, h.2.2.2.2⟩

/-- C3 counterexample: the name consisting of the single character U+212A
KELVIN SIGN contains no ASCII letters or digits — the original claim's
hypothesis holds — yet Python lowercases it to the ASCII letter `k`
(`"\u212A".lower() == "k"`), so the program derives the slug "k", not the
placeholder "holiday", and a custom definition with that name evicts no
built-in whatsoever.  The `lower` instantiation below is `str.lower`
restricted to the characters that occur in this statement: the one
non-trivial mapping KELVIN SIGN ↦ `k`, identity elsewhere. -/
theorem kelvin_name_escapes_placeholder :
    noAsciiAlnum "K" = true ∧
    slugWith (fun ch => if ch = 'K' then ['k'] else [asciiLower ch])
      ⟨"K", 1, 1, 1, [], "", []⟩ = "k" ∧
    slugWith (fun ch => if ch = 'K' then ['k'] else [asciiLower ch])
      ⟨"K", 1, 1, 1, [], "", []⟩ ≠ "holiday" ∧
    calendarInitWith (fun ch => if ch = 'K' then ['k'] else [asciiLower ch])
      [⟨"K", 1, 1, 1, [], "", []⟩] =
      DEFAULT_HOLIDAYS ++ [⟨"K", 1, 1, 1, [], "", []⟩] := by
  refine ⟨by decide, rfl, by decide, by decide⟩

end FestivalGreeter

namespace FestivalGreeter

/-! ## C9: `_next_trigger`

All datetimes in the scheduler live in the one configured zone, modelled
with a fixed offset `off`: `datetime.combine(day, trigger, tzinfo=zone)`
yields the instant whose local seconds are `day * 86400 + trig`. -/

/-- `datetime.combine(dayIndex, trigger-time, tzinfo=zone)` for a zone of
fixed offset `off` (seconds): local wall-clock seconds minus the offset
give the absolute instant. -/
def combineLocal (dayIndex trig off : Int) : DateTime :=
  ⟨dayIndex * 86400 + trig - off, off⟩

/-- `FestivalGreetingPlugin._next_trigger`: today's trigger instant, or
tomorrow's when today's is not strictly after `now` (aware comparison
`candidate <= now` compares absolute seconds). -/
def nextTrigger (now : DateTime) (trig : Int) : DateTime :=
  let candidate := combineLocal now.dateIndex trig now.offset
  if candidate.secs ≤ now.secs then
    combineLocal (now.dateIndex + 1) trig now.offset
  else candidate

/-- C9: the next trigger instant is today's configured time-of-day when that
is strictly after `now`, otherwise tomorrow's; in both cases the result is
strictly after `now`.  (`trig` is a time-of-day in seconds, so `0 ≤ trig`.) -/
theorem nextTrigger_spec (now : DateTime) (trig : Int) (h : 0 ≤ trig) :
    (now.secs < (combineLocal now.dateIndex trig now.offset).secs →
      nextTrigger now trig = combineLocal now.dateIndex trig now.offset) ∧
    (¬now.secs < (combineLocal now.dateIndex trig now.offset).secs →
      nextTrigger now trig = combineLocal (now.dateIndex + 1) trig now.offset) ∧
    now.secs < (nextTrigger now trig).secs := by
  have hday : now.secs + now.offset < (now.dateIndex + 1) * 86400 := by
    have := Int.lt_fdiv_add_one_mul_self (now.secs + now.offset) (by omega : (0:Int) < 86400)
    simpa [DateTime.dateIndex] using this
  refine ⟨fun hlt => ?_, fun hge => ?_, ?_⟩
  · simp only [nextTrigger, if_neg (by omega : ¬(combineLocal now.dateIndex trig now.offset).secs ≤ now.secs)]
  · simp only [nextTrigger, if_pos (by omega : (combineLocal now.dateIndex trig now.offset).secs ≤ now.secs)]
  · by_cases hc : (combineLocal now.dateIndex trig now.offset).secs ≤ now.secs
    · have hc' : now.dateIndex * 86400 + trig - now.offset ≤ now.secs := by
        simpa [combineLocal] using hc
      simp only [nextTrigger, combineLocal, if_pos hc']
      omega
    · have hc' : ¬now.dateIndex * 86400 + trig - now.offset ≤ now.secs := by
        simpa [combineLocal] using hc
      simp only [nextTrigger, combineLocal, if_neg hc']
      omega

/-- Witness for C9: at 09:00 on the epoch day with an 08:00 trigger, the
next trigger is 08:00 tomorrow, strictly after now. -/
theorem nextTrigger_spec_witness :
    nextTrigger ⟨32400, 0⟩ 28800 = combineLocal 1 28800 0 ∧
    (32400 : Int) < (nextTrigger ⟨32400, 0⟩ 28800).secs := by
  have h := nextTrigger_spec ⟨32400, 0⟩ 28800 (by decide)
  exact ⟨h.2.1 (by decide), h.2.2⟩

end FestivalGreeter

namespace FestivalGreeter

/-! ## Orchestration (`main.py`): scheduled fan-out, manual trigger, debug
trigger

The external transport `context.send_message` is a parameter
`send : session → message → Bool` (its Bool is the success signal
`_send_message` returns); the generator `_generate_message` is a parameter
`gen`.  `self._now()` is called afresh in each loop iteration, modelled by
`nowFn` applied to the iteration index. -/

def DEFAULT_PLATFORM : String := "aiocqhttp"

def DEFAULT_MESSAGE_TYPE : String := "group"

/-- `str.split(":")` over the character list. -/
def splitColons : List Char → List (List Char)
  | [] => [[]]
  | c :: rest =>
    match splitColons rest with
    | [] => [[]]
    | h :: t => if c = ':' then [] :: h :: t else (c :: h) :: t

/-- `FestivalGreetingPlugin._extract_group_id`: `session.split(":")[-1]`
(the split of a string is never empty, so the `if parts` guard always takes
the first branch). -/
def extractGroupId (session : String) : String :=
  String.mk ((splitColons session.data).getLastD session.data)

/-- Python `str.strip()` with no argument (ASCII whitespace model). -/
def isSpaceChar (c : Char) : Bool :=
  c = ' ' || c = '\t' || c = '\n' || c = '\r' || c = '\x0b' || c = '\x0c'

def trimString (s : String) : String :=
  String.mk (((s.data.dropWhile isSpaceChar).reverse.dropWhile isSpaceChar).reverse)

/-- `FestivalGreetingPlugin._normalize_session`. -/
def normalizeSession (item : String) : Option String :=
  let text := trimString item
  if text = "" then none
  else if text.contains ':' then some text
  else some (DEFAULT_PLATFORM ++ ":" ++ DEFAULT_MESSAGE_TYPE ++ ":" ++ text)

/-- Observable actions of `_deliver_holiday`, in program order. -/
inductive DeliverEvent
  | sendAttempt (session msg : String) (ok : Bool)
  | marked (g k : String)
deriving DecidableEq

/-- One iteration of the `for session in sessions` loop of
`_deliver_holiday`: skip when not due (`if not should_send: continue`) or
when the generated message is falsy; otherwise attempt the transport and
record the delivery only when it confirms success. -/
def deliverStep (parse : String → Option DateTime) (fmt : DateTime → String)
    (key : String) (nowFn : Nat → DateTime) (cooldown : Int)
    (gen : String → String) (send : String → String → Bool)
    (acc : StoreState × List DeliverEvent) (p : Nat × String) :
    StoreState × List DeliverEvent :=
  if shouldSend parse acc.1 (extractGroupId p.2) key (nowFn p.1) cooldown = false then acc
  else if gen (extractGroupId p.2) = "" then acc
  else if send p.2 (gen (extractGroupId p.2)) then
    (markSent fmt acc.1 (extractGroupId p.2) key (nowFn p.1),
     acc.2 ++ [DeliverEvent.sendAttempt p.2 (gen (extractGroupId p.2)) true,
               DeliverEvent.marked (extractGroupId p.2) key])
  else (acc.1, acc.2 ++ [DeliverEvent.sendAttempt p.2 (gen (extractGroupId p.2)) false])

/-- `FestivalGreetingPlugin._deliver_holiday` for one occurrence key. -/
def deliverHoliday (parse : String → Option DateTime) (fmt : DateTime → String)
    (st : StoreState) (key : String) (sessions : List String)
    (nowFn : Nat → DateTime) (cooldown : Int)
    (gen : String → String) (send : String → String → Bool) :
    StoreState × List DeliverEvent :=
  (sessions.enum).foldl (deliverStep parse fmt key nowFn cooldown gen send) (st, [])

/-- The ledger-relevant loop of `FestivalGreetingPlugin.manual_send`: for
each active holiday, if due, generate, yield the text as the chat reply and
then `mark_sent` — the framework's delivery outcome for the yielded reply
(`replyOk`) is never consulted. -/
def manualSend (parse : String → Option DateTime) (fmt : DateTime → String)
    (st : StoreState) (gid : String) (holidayKeys : List String)
    (nowFn : Nat → DateTime) (cooldown : Int) (gen : String → String)
    (_replyOk : String → Bool) : StoreState :=
  (holidayKeys.enum).foldl (fun st p =>
    if shouldSend parse st gid p.2 (nowFn p.1) cooldown = false then st
    else if gen p.2 = "" then st
    else markSent fmt st gid p.2 (nowFn p.1)) st

end FestivalGreeter

namespace FestivalGreeter

/-! ## C4: `mark_sent` versus transport confirmation -/

theorem mem_of_mem_enumFrom {α : Type} :
    ∀ {l : List α} {n i : Nat} {x : α}, (i, x) ∈ l.enumFrom n → x ∈ l := by
  intro l
  induction l with
  | nil => intro n i x h; cases h
  | cons a rest ih =>
    intro n i x h
    rw [List.enumFrom] at h
    rcases List.mem_cons.mp h with h | h
    · cases h
      exact List.mem_cons_self _ _
    · exact List.mem_cons_of_mem _ (ih h)

theorem mem_of_mem_enum {α : Type} {l : List α} {i : Nat} {x : α}
    (h : (i, x) ∈ l.enum) : x ∈ l :=
  mem_of_mem_enumFrom h

theorem deliverStep_skip_notdue (parse : String → Option DateTime) (fmt : DateTime → String)
    (key : String) (nowFn : Nat → DateTime) (cooldown : Int)
    (gen : String → String) (send : String → String → Bool)
    (acc : StoreState × List DeliverEvent) (p : Nat × String)
    (c1 : shouldSend parse acc.1 (extractGroupId p.2) key (nowFn p.1) cooldown = false) :
    deliverStep parse fmt key nowFn cooldown gen send acc p = acc := by
  simp [deliverStep, c1]

theorem deliverStep_skip_empty (parse : String → Option DateTime) (fmt : DateTime → String)
    (key : String) (nowFn : Nat → DateTime) (cooldown : Int)
    (gen : String → String) (send : String → String → Bool)
    (acc : StoreState × List DeliverEvent) (p : Nat × String)
    (c1 : shouldSend parse acc.1 (extractGroupId p.2) key (nowFn p.1) cooldown = true)
    (c2 : gen (extractGroupId p.2) = "") :
    deliverStep parse fmt key nowFn cooldown gen send acc p = acc := by
  simp [deliverStep, c1, c2]

theorem deliverStep_send_ok (parse : String → Option DateTime) (fmt : DateTime → String)
    (key : String) (nowFn : Nat → DateTime) (cooldown : Int)
    (gen : String → String) (send : String → String → Bool)
    (acc : StoreState × List DeliverEvent) (p : Nat × String)
    (c1 : shouldSend parse acc.1 (extractGroupId p.2) key (nowFn p.1) cooldown = true)
    (c2 : ¬gen (extractGroupId p.2) = "")
    (c3 : send p.2 (gen (extractGroupId p.2)) = true) :
    deliverStep parse fmt key nowFn cooldown gen send acc p =
      (markSent fmt acc.1 (extractGroupId p.2) key (nowFn p.1),
       acc.2 ++ [DeliverEvent.sendAttempt p.2 (gen (extractGroupId p.2)) true,
                 DeliverEvent.marked (extractGroupId p.2) key]) := by
  simp [deliverStep, c1, c2, c3]

theorem deliverStep_send_fail (parse : String → Option DateTime) (fmt : DateTime → String)
    (key : String) (nowFn : Nat → DateTime) (cooldown : Int)
    (gen : String → String) (send : String → String → Bool)
    (acc : StoreState × List DeliverEvent) (p : Nat × String)
    (c1 : shouldSend parse acc.1 (extractGroupId p.2) key (nowFn p.1) cooldown = true)
    (c2 : ¬gen (extractGroupId p.2) = "")
    (c3 : send p.2 (gen (extractGroupId p.2)) = false) :
    deliverStep parse fmt key nowFn cooldown gen send acc p =
      (acc.1, acc.2 ++ [DeliverEvent.sendAttempt p.2 (gen (extractGroupId p.2)) false]) := by
  simp [deliverStep, c1, c2, c3]

theorem deliver_marked_aux (parse : String → Option DateTime) (fmt : DateTime → String)
    (key : String) (nowFn : Nat → DateTime) (cooldown : Int)
    (gen : String → String) (send : String → String → Bool) :
    ∀ (pairs : List (Nat × String)) (st : StoreState) (evs : List DeliverEvent)
      (g k : String),
      DeliverEvent.marked g k ∈
        (pairs.foldl (deliverStep parse fmt key nowFn cooldown gen send) (st, evs)).2 →
      DeliverEvent.marked g k ∈ evs ∨
        ∃ s, (∃ i, (i, s) ∈ pairs) ∧ extractGroupId s = g ∧ k = key ∧
          send s (gen (extractGroupId s)) = true := by
  intro pairs
  induction pairs with
  | nil =>
    intro st evs g k h
    exact Or.inl h
  | cons p rest ih =>
    intro st evs g k h
    rw [List.foldl_cons] at h
    rcases hstep : deliverStep parse fmt key nowFn cooldown gen send (st, evs) p with ⟨st', evs'⟩
    rw [hstep] at h
    rcases ih st' evs' g k h with h1 | h1
    · by_cases c1 : shouldSend parse st (extractGroupId p.2) key (nowFn p.1) cooldown = false
      · rw [deliverStep_skip_notdue parse fmt key nowFn cooldown gen send (st, evs) p c1] at hstep
        cases hstep
        exact Or.inl h1
      · have c1' : shouldSend parse st (extractGroupId p.2) key (nowFn p.1) cooldown = true := by
          cases hval : shouldSend parse st (extractGroupId p.2) key (nowFn p.1) cooldown with
          | false => exact absurd hval c1
          | true => rfl
        by_cases c2 : gen (extractGroupId p.2) = ""
        · rw [deliverStep_skip_empty parse fmt key nowFn cooldown gen send (st, evs) p c1' c2] at hstep
          cases hstep
          exact Or.inl h1
        · by_cases c3 : send p.2 (gen (extractGroupId p.2)) = true
          · rw [deliverStep_send_ok parse fmt key nowFn cooldown gen send (st, evs) p c1' c2 c3] at hstep
            cases hstep
            simp only [List.mem_append, List.mem_cons, List.not_mem_nil, or_false] at h1
            rcases h1 with h1 | h1 | h1
            · exact Or.inl h1
            · cases h1
            · cases h1
              exact Or.inr ⟨p.2, ⟨p.1, by simp⟩, rfl, rfl, c3⟩
          · have c3' : send p.2 (gen (extractGroupId p.2)) = false := by
              cases hval : send p.2 (gen (extractGroupId p.2)) with
              | false => rfl
              | true => exact absurd hval c3
            rw [deliverStep_send_fail parse fmt key nowFn cooldown gen send (st, evs) p c1' c2 c3'] at hstep
            cases hstep
            simp only [List.mem_append, List.mem_cons, List.not_mem_nil, or_false] at h1
            rcases h1 with h1 | h1
            · exact Or.inl h1
            · cases h1
    · obtain ⟨s, ⟨i, hi⟩, hrest⟩ := h1
      exact Or.inr ⟨s, ⟨i, List.mem_cons_of_mem _ hi⟩, hrest⟩

/-- C4 (amended): in the scheduled fan-out (`_deliver_holiday`) every
`mark_sent` event is tied to a session of the batch whose transport call
confirmed success — `mark_sent` is never reached when the transport fails
or is skipped.  The manual trigger, by contrast, updates the ledger after
yielding the reply, independently of any transport outcome for that reply
(`manualSend` does not depend on `replyOk` at all). -/
theorem markSent_transport_discipline
    (parse : String → Option DateTime) (fmt : DateTime → String) (st : StoreState)
    (key : String) (sessions : List String) (nowFn : Nat → DateTime) (cooldown : Int)
    (gen : String → String) (send : String → String → Bool)
    (gid : String) (holidayKeys : List String) (replyOk replyOk' : String → Bool) :
    (∀ g k, DeliverEvent.marked g k ∈
        (deliverHoliday parse fmt st key sessions nowFn cooldown gen send).2 →
      ∃ s, s ∈ sessions ∧ extractGroupId s = g ∧ k = key ∧
        send s (gen (extractGroupId s)) = true) ∧
    manualSend parse fmt st gid holidayKeys nowFn cooldown gen replyOk =
      manualSend parse fmt st gid holidayKeys nowFn cooldown gen replyOk' := by
  constructor
  · intro g k h
    rcases deliver_marked_aux parse fmt key nowFn cooldown gen send
      sessions.enum st [] g k h with h1 | h1
    · cases h1
    · obtain ⟨s, ⟨i, hi⟩, h2, h3, h4⟩ := h1
      exact ⟨s, mem_of_mem_enum hi, h2, h3, h4⟩
  · rfl

/-- Witness for C4 at a concrete run: one session, a due pair, a succeeding
transport — the single `marked` event indeed belongs to that session with a
confirmed send. -/
theorem markSent_transport_discipline_witness :
    ∃ s, s ∈ ["aiocqhttp:group:7"] ∧ extractGroupId s = "7" ∧
      "holiday-2025-01-01" = "holiday-2025-01-01" ∧
      (fun (_ : String) (_ : String) => true) s
        ((fun _ => "祝福") (extractGroupId s)) = true :=
  (markSent_transport_discipline (fun _ => none) (fun _ => "t") [] "holiday-2025-01-01"
    ["aiocqhttp:group:7"] (fun _ => ⟨0, 0⟩) 24 (fun _ => "祝福")
    (fun _ _ => true) "7" [] (fun _ => true) (fun _ => true)).1
    "7" "holiday-2025-01-01" (by decide)

/-- C4 counterexample: the manual trigger records the delivery even though
the transport outcome for the yielded reply is failure — the ledger gains
the `(recipient, occurrence)` record with no transport-confirmed success,
contradicting the claim as stated for the manual path. -/
theorem manualSend_marks_without_transport :
    lookupRecord
      (manualSend (fun _ => none) (fun _ => "2025-01-01T08:00:00+08:00") []
        "7" ["holiday-2025-01-01"] (fun _ => ⟨0, 0⟩) 24 (fun _ => "祝福")
        (fun _ => false))
      "7" "holiday-2025-01-01" = some "2025-01-01T08:00:00+08:00" := by
  decide

end FestivalGreeter

namespace FestivalGreeter

/-! ## C10: the debug trigger never touches the ledger -/

/-- The target-list update of `debug_send`: append the normalised session
when it normalises and is not yet present. -/
def debugAppendTarget (session : String) (targets : List String) : List String :=
  match normalizeSession session with
  | some ns => if ns ∈ targets then targets else targets ++ [ns]
  | none => targets

/-- `target_session = normalized_session or session`. -/
def debugTargetSession (session : String) : String :=
  (normalizeSession session).getD session

/-- The per-holiday loop of `debug_send`: count successes, collect the
names of failures; no ledger access at all. -/
def debugLoop (send : String → String → Bool) (targetSession : String)
    (gen : HolidayOccurrence → String) (holidays : List HolidayOccurrence) :
    Nat × List String :=
  holidays.foldl (fun acc h =>
    if gen h = "" then (acc.1, acc.2 ++ [h.definition.name])
    else if send targetSession (gen h) then (acc.1 + 1, acc.2)
    else (acc.1, acc.2 ++ [h.definition.name])) (0, [])

/-- `FestivalGreetingPlugin.debug_send`: admin gate, session gate, holiday
gate, then append the session to the in-memory target list and run the
generator/transport loop.  Returns the new target list, the (untouched)
ledger and the loop outcome. -/
def debugSend (isAdmin : Bool) (session : String) (targets : List String)
    (st : StoreState) (holidays : List HolidayOccurrence)
    (gen : HolidayOccurrence → String) (send : String → String → Bool) :
    (List String × StoreState) × (Nat × List String) :=
  if isAdmin = false then ((targets, st), (0, []))
  else if session = "" then ((targets, st), (0, []))
  else if holidays.isEmpty then ((targets, st), (0, []))
  else ((debugAppendTarget session targets, st),
        debugLoop send (debugTargetSession session) gen holidays)

/-- C10: for every starting state, `debug_send` leaves the delivery ledger
exactly as it was — it never calls `mark_sent` — so `should_send` answers
the same after a debug send as before; the only state it touches is the
in-memory delivery-target list, which at most gains the current session. -/
theorem debugSend_frame (isAdmin : Bool) (session : String) (targets : List String)
    (st : StoreState) (holidays : List HolidayOccurrence)
    (gen : HolidayOccurrence → String) (send : String → String → Bool) :
    (debugSend isAdmin session targets st holidays gen send).1.2 = st ∧
    ((debugSend isAdmin session targets st holidays gen send).1.1 = targets ∨
      ∃ ns, normalizeSession session = some ns ∧ ns ∉ targets ∧
        (debugSend isAdmin session targets st holidays gen send).1.1 = targets ++ [ns]) ∧
    (∀ parse g k now c,
      shouldSend parse (debugSend isAdmin session targets st holidays gen send).1.2
          g k now c =
        shouldSend parse st g k now c) := by
  have hst : (debugSend isAdmin session targets st holidays gen send).1.2 = st := by
    unfold debugSend
    split
    · rfl
    · split
      · rfl
      · split
        · rfl
        · rfl
  refine ⟨hst, ?_, fun parse g k now c => by rw [hst]⟩
  unfold debugSend
  split
  · exact Or.inl rfl
  · split
    · exact Or.inl rfl
    · split
      · exact Or.inl rfl
      · show debugAppendTarget session targets = targets ∨ _
        unfold debugAppendTarget
        cases hn : normalizeSession session with
        | none => exact Or.inl rfl
        | some ns =>
          by_cases hmem : ns ∈ targets
          · left
            simp [hmem]
          · right
            exact ⟨ns, rfl, hmem, by simp [hmem]⟩

end FestivalGreeter

namespace FestivalGreeter

/-! ## C5: `_generate_message` and `_build_fallback`

Python `str.format` (as used by `_build_fallback` with the keyword
arguments `holiday`, `date`, `year`) is modelled by a two-phase mini
formatter: parse the template into literal/field tokens (`None` models the
`ValueError` raised for unbalanced braces), then render fields left to
right (an unknown field name models the `KeyError` Python raises; the
conversion/format-spec mini-language is not modelled separately — such a
suffix stays part of the field name).  The LLM provider is a parameter
`attempt : Nat → Option String` giving each attempt's outcome (`none`
models a raised exception, the empty string a response with no usable
text). -/

inductive FormatError
  | keyError (field : String)
  | valueError
deriving DecidableEq

inductive TemplateToken
  | lit (c : Char)
  | field (name : List Char)
deriving DecidableEq

/-- Keyword arguments supplied by `_build_fallback`. -/
def knownField (field : List Char) : Bool :=
  field == "holiday".data || field == "date".data || field == "year".data

def fieldValue (holiday date year : String) (field : List Char) : String :=
  if field == "holiday".data then holiday
  else if field == "date".data then date
  else year

/-- Template scanner: in normal mode (`acc = none`) `{{`/`}}` are literal
braces, `{` opens a field and a bare `}` is an error; in field mode
(`acc = some name`) characters accumulate until the closing `}`.  `none`
models `ValueError`. -/
def parseT : List Char → Option (List Char) → Option (List TemplateToken)
  | [], none => some []
  | [], some _ => none
  | '{' :: '{' :: rest, none => (parseT rest none).map (TemplateToken.lit '{' :: ·)
  | '{' :: rest, none => parseT rest (some [])
  | '}' :: '}' :: rest, none => (parseT rest none).map (TemplateToken.lit '}' :: ·)
  | '}' :: _, none => none
  | c :: rest, none => (parseT rest none).map (TemplateToken.lit c :: ·)
  | c :: rest, some acc =>
    if c = '}' then (parseT rest none).map (TemplateToken.field acc.reverse :: ·)
    else parseT rest (some (c :: acc))

/-- Render the parsed template left to right, substituting the three
keyword arguments and raising `KeyError` on any other field. -/
def renderTokens (holiday date year : String) : List TemplateToken → Except FormatError String
  | [] => Except.ok ""
  | TemplateToken.lit c :: rest =>
    match renderTokens holiday date year rest with
    | Except.ok s => Except.ok (String.singleton c ++ s)
    | Except.error e => Except.error e
  | TemplateToken.field n :: rest =>
    if knownField n then
      match renderTokens holiday date year rest with
      | Except.ok s => Except.ok (fieldValue holiday date year n ++ s)
      | Except.error e => Except.error e
    else Except.error (FormatError.keyError (String.mk n))

/-- `template.format(holiday=..., date=..., year=...)`. -/
def formatTemplate (template holiday date year : String) : Except FormatError String :=
  match parseT template.data none with
  | none => Except.error FormatError.valueError
  | some toks => renderTokens holiday date year toks

def knownTok : TemplateToken → Bool
  | TemplateToken.lit _ => true
  | TemplateToken.field n => knownField n

/-- A template `str.format` accepts with exactly the keyword arguments
`holiday`, `date`, `year`: braces balanced and every field known. -/
def wfTemplate (t : String) : Bool :=
  match parseT t.data none with
  | some toks => toks.all knownTok
  | none => false

/-- `FestivalGreetingPlugin._build_fallback`: with configured templates,
`random.choice` (modelled by the arbitrary index `pick`) then `format`;
otherwise the built-in sentence incorporating the holiday name. -/
def buildFallback (fallbacks : List String) (pick : Nat)
    (holiday date year : String) : Except FormatError String :=
  match fallbacks with
  | [] => Except.ok (holiday ++ "快乐！愿每位小伙伴都能与家人朋友共享温暖时光，心愿成真，未来可期。")
  | f :: rest =>
    formatTemplate ((f :: rest).getD (pick % (f :: rest).length) f) holiday date year

/-- The retry loop of `_generate_message`: `for attempt in
range(max_retries + 1)` — a raised exception (`none`) or empty extracted
text falls through to the next attempt; non-empty text returns at once. -/
def runAttempts (attempt : Nat → Option String) : Nat → Nat → Option String
  | _, 0 => none
  | i, k + 1 =>
    match attempt i with
    | some text => if text = "" then runAttempts attempt (i + 1) k else some text
    | none => runAttempts attempt (i + 1) k

/-- `FestivalGreetingPlugin._generate_message`: the provider loop when a
provider resolves, then the local fallback. -/
def generateMessage (providerAvailable : Bool) (attempt : Nat → Option String)
    (maxRetries : Nat) (fallbacks : List String) (pick : Nat)
    (holiday date year : String) : Except FormatError String :=
  match (if providerAvailable then runAttempts attempt 0 (maxRetries + 1) else none) with
  | some text => Except.ok text
  | none => buildFallback fallbacks pick holiday date year

theorem renderTokens_ok (holiday date year : String) :
    ∀ toks : List TemplateToken, toks.all knownTok = true →
      ∃ s, renderTokens holiday date year toks = Except.ok s := by
  intro toks
  induction toks with
  | nil => intro _; exact ⟨"", rfl⟩
  | cons t rest ih =>
    intro hall
    rw [List.all_cons, Bool.and_eq_true] at hall
    obtain ⟨ht, hrest⟩ := hall
    obtain ⟨s, hs⟩ := ih hrest
    cases t with
    | lit c =>
      exact ⟨String.singleton c ++ s, by simp only [renderTokens, hs]⟩
    | field n =>
      have hn : knownField n = true := ht
      exact ⟨fieldValue holiday date year n ++ s,
        by simp [renderTokens, hn, hs]⟩

theorem formatTemplate_ok (t holiday date year : String) (h : wfTemplate t = true) :
    ∃ s, formatTemplate t holiday date year = Except.ok s := by
  unfold wfTemplate at h
  unfold formatTemplate
  cases hp : parseT t.data none with
  | none => rw [hp] at h; cases h
  | some toks =>
    rw [hp] at h
    exact renderTokens_ok holiday date year toks h

theorem getD_mem_or (l : List String) (i : Nat) (d : String) :
    l.getD i d ∈ l ∨ l.getD i d = d := by
  induction l generalizing i with
  | nil => exact Or.inr rfl
  | cons a rest ih =>
    cases i with
    | zero => exact Or.inl (by simp)
    | succ n =>
      rcases ih n with h | h
      · exact Or.inl (by simp [List.getD_cons_succ]; right; simpa using h)
      · exact Or.inr (by simpa [List.getD_cons_succ] using h)

theorem buildFallback_ok (fallbacks : List String) (pick : Nat)
    (holiday date year : String) (hwf : ∀ t ∈ fallbacks, wfTemplate t = true) :
    ∃ s, buildFallback fallbacks pick holiday date year = Except.ok s := by
  cases fallbacks with
  | nil => exact ⟨_, rfl⟩
  | cons f rest =>
    unfold buildFallback
    apply formatTemplate_ok
    rcases getD_mem_or (f :: rest) (pick % (f :: rest).length) f with h | h
    · exact hwf _ h
    · rw [h]
      exact hwf f (List.mem_cons_self f rest)

theorem runAttempts_congr (f f' : Nat → Option String) :
    ∀ (k i : Nat), (∀ j, i ≤ j → j < i + k → f j = f' j) →
      runAttempts f i k = runAttempts f' i k := by
  intro k
  induction k with
  | zero => intro i _; rfl
  | succ n ih =>
    intro i h
    have ih' := ih (i + 1) (fun j hj1 hj2 => h j (by omega) (by omega))
    simp only [runAttempts]
    rw [h i (Nat.le_refl i) (by omega)]
    cases f' i with
    | none => exact ih'
    | some text =>
      dsimp only
      by_cases ht : text = ""
      · rw [if_pos ht, if_pos ht]
        exact ih'
      · rw [if_neg ht, if_neg ht]

/-- C5 (amended): message generation consults the provider for at most
`max_retries + 1` attempts (the result is unchanged by what any later
attempt would have returned); when no attempt yields usable text — or no
provider resolves — it returns the locally built fallback; and it returns
normally (no exception) whenever every configured fallback template is one
`str.format` accepts with the holiday/date/year keywords.  With no
configured templates the built-in sentence incorporating the holiday name
is produced.  (A template with any other replacement field makes
`_build_fallback` raise, which `_generate_message` does not catch — see the
counterexample.) -/
theorem generateMessage_spec (providerAvailable : Bool)
    (attempt attempt' : Nat → Option String) (maxRetries : Nat)
    (fallbacks : List String) (pick : Nat) (holiday date year : String)
    (hwf : ∀ t ∈ fallbacks, wfTemplate t = true)
    (hagree : ∀ i, i < maxRetries + 1 → attempt i = attempt' i) :
    (∃ s, generateMessage providerAvailable attempt maxRetries fallbacks pick
        holiday date year = Except.ok s) ∧
    generateMessage providerAvailable attempt maxRetries fallbacks pick
        holiday date year =
      generateMessage providerAvailable attempt' maxRetries fallbacks pick
        holiday date year ∧
    (runAttempts attempt 0 (maxRetries + 1) = none ∨ providerAvailable = false →
      generateMessage providerAvailable attempt maxRetries fallbacks pick
          holiday date year = buildFallback fallbacks pick holiday date year) ∧
    buildFallback [] pick holiday date year =
      Except.ok (holiday ++ "快乐！愿每位小伙伴都能与家人朋友共享温暖时光，心愿成真，未来可期。") := by
  have hrun : runAttempts attempt 0 (maxRetries + 1) =
      runAttempts attempt' 0 (maxRetries + 1) :=
    runAttempts_congr attempt attempt' (maxRetries + 1) 0
      (fun j _ hj2 => hagree j (by omega))
  refine ⟨?_, ?_, ?_, rfl⟩
  · unfold generateMessage
    cases hp : (if providerAvailable then runAttempts attempt 0 (maxRetries + 1) else none) with
    | some text => exact ⟨text, rfl⟩
    | none => exact buildFallback_ok fallbacks pick holiday date year hwf
  · unfold generateMessage
    rw [hrun]
  · intro hfail
    unfold generateMessage
    rcases hfail with hfail | hfail
    · rw [hfail]
      cases providerAvailable <;> rfl
    · rw [hfail]
      rfl

/-- Witness for C5: no provider, one well-formed template — generation
returns it rendered, exception-free. -/
theorem generateMessage_spec_witness :
    ∃ s, generateMessage false (fun _ => none) 1 ["\x7bholiday\x7d快乐，今天是\x7bdate\x7d！"] 0
      "元旦" "01月01日" "2025" = Except.ok s :=
  (generateMessage_spec false (fun _ => none) (fun _ => none) 1
    ["\x7bholiday\x7d快乐，今天是\x7bdate\x7d！"] 0 "元旦" "01月01日" "2025"
    (by decide) (fun _ _ => rfl)).1

/-- C5 counterexample: a user-supplied fallback template with an unknown
replacement field makes generation raise (`KeyError`, uncaught in
`_generate_message`), so as stated — "for every user-supplied
fallback-message template list" — the claim fails. -/
theorem generateMessage_raises_on_bad_template :
    generateMessage false (fun _ => none) 1 ["\x7bfoo\x7d"] 0 "元旦" "01月01日" "2025" =
      Except.error (FormatError.keyError "foo") := rfl

end FestivalGreeter

namespace FestivalGreeter

/-! ## C6: `HolidayCalendar.from_config`

Configuration items are strings, dicts or other values.  A structured
record models the dict reads of `from_config`: `none` in a numeric field
means `int(...)` raises (missing or non-numeric month/day; for
`length_days`, `raw.get("length_days", 1) or 1` has already turned a
missing or falsy value into 1, so `none` is a present non-numeric value),
which skips the whole record via the `except` clause. -/

structure RawHoliday where
  name : String
  month : Option Int
  day : Option Int
  lengthDays : Option Int
  aliases : List String
  description : String
deriving DecidableEq

inductive ConfigItem
  | str (s : String)
  | dict (d : RawHoliday)
  | other
deriving DecidableEq

/-- One structured record → definition, or `none` when a numeric field
fails to parse (the logged-and-skipped branch). -/
def buildStructured (r : RawHoliday) : Option HolidayDefinition :=
  match r.month, r.day, r.lengthDays with
  | some m, some d, some len =>
    some ⟨(if trimString r.name = "" then "未命名节日" else trimString r.name), m, d,
          max 1 len,
          (r.aliases.map trimString).filter (fun a => a ≠ ""),
          r.description, []⟩
  | _, _, _ => none

/-- The structured branch: non-dict items are skipped, bad records are
skipped. -/
def structuredDefs (items : List ConfigItem) : List HolidayDefinition :=
  items.filterMap (fun item =>
    match item with
    | ConfigItem.dict r => buildStructured r
    | _ => none)

def isDigitChar (c : Char) : Bool := '0' ≤ c && c ≤ '9'

/-- Numeric value of a two-digit token slice, `int(token[:2])`. -/
def parse2 (a b : Char) : Int :=
  ((a.toNat : Int) - 48) * 10 + ((b.toNat : Int) - 48)

/-- `DATE_TOKEN_PATTERN.fullmatch`: the regex
`^(0[1-9]|1[0-2])(0[1-9]|[12][0-9]|3[01])$` accepts exactly the four-digit
strings whose first two digits read 1..12 and last two digits read 1..31,
which is how it is stated here. -/
def validToken (tok : String) : Bool :=
  match tok.data with
  | [a, b, c, d] =>
    isDigitChar a && isDigitChar b && isDigitChar c && isDigitChar d &&
    1 ≤ parse2 a b && parse2 a b ≤ 12 && 1 ≤ parse2 c d && parse2 c d ≤ 31
  | _ => false

/-- `(int(token[:2]), int(token[2:]))` for a four-character token. -/
def tokenMonthDay (tok : String) : Int × Int :=
  match tok.data with
  | [a, b, c, d] => (parse2 a b, parse2 c d)
  | _ => (0, 0)

/-- The flat branch of `from_config`: non-strings skipped, blank strings
skipped, strings paired through the two-slot buffer; a pair registers a
definition when the date token matches the pattern and the name is
non-blank; a trailing unpaired entry is dropped. -/
def flatDefs : List ConfigItem → Option String → List HolidayDefinition
  | [], _ => []
  | item :: rest, buffer =>
    match item with
    | ConfigItem.str s =>
      if trimString s = "" then flatDefs rest buffer
      else
        match buffer with
        | none => flatDefs rest (some (trimString s))
        | some tok =>
          if validToken tok = false then flatDefs rest none
          else if trimString s = "" then flatDefs rest none
          else ⟨trimString s, (tokenMonthDay tok).1, (tokenMonthDay tok).2, 1, [], "", []⟩ ::
            flatDefs rest none
    | _ => flatDefs rest buffer

/-- `HolidayCalendar.from_config` followed by `HolidayCalendar.__init__`:
the resulting calendar's definition list. -/
def fromConfig (items : List ConfigItem) : List HolidayDefinition :=
  if items.isEmpty then calendarInit []
  else if items.any (fun i => match i with | ConfigItem.dict _ => true | _ => false) then
    calendarInit (structuredDefs items)
  else calendarInit (flatDefs items none)

theorem tokenMonthDay_bounds (tok : String) (h : validToken tok = true) :
    1 ≤ (tokenMonthDay tok).1 ∧ (tokenMonthDay tok).1 ≤ 12 ∧
    1 ≤ (tokenMonthDay tok).2 ∧ (tokenMonthDay tok).2 ≤ 31 := by
  unfold validToken at h
  unfold tokenMonthDay
  rcases htok : tok.data with _ | ⟨a, _ | ⟨b, _ | ⟨c, _ | ⟨d, _ | ⟨e, t⟩⟩⟩⟩⟩ <;>
    rw [htok] at h <;> simp_all

theorem flatDefs_checked : ∀ (items : List ConfigItem) (buffer : Option String),
    ∀ d ∈ flatDefs items buffer,
      d.name ≠ "" ∧ 1 ≤ d.month ∧ d.month ≤ 12 ∧ 1 ≤ d.day ∧ d.day ≤ 31 := by
  intro items
  induction items with
  | nil =>
    intro buffer d hd
    cases hd
  | cons item rest ih =>
    intro buffer d hd
    cases item with
    | str s =>
      simp only [flatDefs] at hd
      by_cases htext : trimString s = ""
      · rw [if_pos htext] at hd
        exact ih buffer d hd
      · rw [if_neg htext] at hd
        cases buffer with
        | none =>
          dsimp only at hd
          exact ih (some (trimString s)) d hd
        | some tok =>
          dsimp only at hd
          by_cases hvt : validToken tok = false
          · rw [if_pos hvt] at hd
            exact ih none d hd
          · rw [if_neg hvt, if_neg htext] at hd
            have hvt' : validToken tok = true := by
              cases hval : validToken tok with
              | false => exact absurd hval hvt
              | true => rfl
            rcases List.mem_cons.mp hd with hh | hh
            · subst hh
              obtain ⟨h1, h2, h3, h4⟩ := tokenMonthDay_bounds tok hvt'
              exact ⟨htext, h1, h2, h3, h4⟩
            · exact ih none d hh
    | dict r =>
      simp only [flatDefs] at hd
      exact ih buffer d hd
    | other =>
      simp only [flatDefs] at hd
      exact ih buffer d hd

theorem feb30_never_occurs (name : String) (target : Date) :
    HolidayDefinition.occurrenceOn ⟨name, 2, 30, 1, [], "", []⟩ target = none := by
  have hv : validDate target.year 2 30 = false := by
    unfold validDate daysInMonth
    cases h : isLeapYear target.year <;> simp [h]
  unfold HolidayDefinition.occurrenceOn HolidayDefinition.startDateForYear
  simp [lookupYear, hv]

/-- C6 (amended): calendar construction from configuration never raises and
skips malformed entries — non-strings and blank strings in the flat form,
odd trailing entries, tokens failing the MMDD pattern, and structured
records whose numeric fields do not parse — while well-formed entries in
the same list still load.  Every flat-form definition that does register
carries a non-empty name, a month read 1..12 and a day read 1..31.
However, a token of valid shape with a calendar-invalid month/day pair
(e.g. `"0230"`, February 30) IS registered, contrary to the claim; its
definition merely matches no date of any year. -/
theorem fromConfig_spec :
    (∀ (items : List ConfigItem) (buffer : Option String),
      ∀ d ∈ flatDefs items buffer,
        d.name ≠ "" ∧ 1 ≤ d.month ∧ d.month ≤ 12 ∧ 1 ≤ d.day ∧ d.day ≤ 31) ∧
    (∀ (name : String) (target : Date),
      HolidayDefinition.occurrenceOn ⟨name, 2, 30, 1, [], "", []⟩ target = none) ∧
    buildStructured ⟨"测试", none, some 5, some 1, [], ""⟩ = none ∧
    fromConfig [ConfigItem.str "bad", ConfigItem.str "x", ConfigItem.other,
        ConfigItem.str " ", ConfigItem.str "0101", ConfigItem.str "元旦",
        ConfigItem.str "1301"] =
      [⟨"元旦", 1, 1, 1, [], "", []⟩] := by
  refine ⟨flatDefs_checked, feb30_never_occurs, rfl, ?_⟩
  decide

/-- Witness for C6: the well-formed pair `("0101", "元旦")` loads a
definition passing all the checks. -/
theorem fromConfig_spec_witness :
    (⟨"元旦", 1, 1, 1, [], "", []⟩ : HolidayDefinition) ∈
      flatDefs [ConfigItem.str "0101", ConfigItem.str "元旦"] none ∧
    (⟨"元旦", 1, 1, 1, [], "", []⟩ : HolidayDefinition).name ≠ "" ∧
    (1 : Int) ≤ (⟨"元旦", 1, 1, 1, [], "", []⟩ : HolidayDefinition).month ∧
    (⟨"元旦", 1, 1, 1, [], "", []⟩ : HolidayDefinition).month ≤ 12 ∧
    (1 : Int) ≤ (⟨"元旦", 1, 1, 1, [], "", []⟩ : HolidayDefinition).day ∧
    (⟨"元旦", 1, 1, 1, [], "", []⟩ : HolidayDefinition).day ≤ 31 :=
  ⟨by decide,
    fromConfig_spec.1 [ConfigItem.str "0101", ConfigItem.str "元旦"] none
      ⟨"元旦", 1, 1, 1, [], "", []⟩ (by decide)⟩

/-- C6 counterexample: the flat pair `("0230", "测试")` — February 30 — is
accepted by the token pattern and registers a definition (which even
replaces every built-in, its slug being the shared placeholder), so the
malformed month/day pair is not skipped as the claim states. -/
theorem fromConfig_registers_feb30 :
    fromConfig [ConfigItem.str "0230", ConfigItem.str "测试"] =
      [⟨"测试", 2, 30, 1, [], "", []⟩] := by
  decide

end FestivalGreeter
